import Mathlib

/-!
Verification of the claudine-proxy repository: a shallow embedding of the
system-prompt injector, the impersonation transport header policy, the file
token store, the SSE chat-completions handler, the streaming event
translator, the persistent token source write-back, the configuration
defaults and the chat-completion request validation, together with theorems
settling the specification claims about them.
-/

namespace ClaudineProxy

/-! ## JSON value model

JSON values as read and re-emitted by the streaming injector in
internal/proxy/impersonation.go.  Objects are lists of key/value pairs in
emission order (duplicate keys possible, as in the token stream); numbers
are kept as their lexemes since the injector passes value fragments through
verbatim. -/

inductive JValue where
  | null : JValue
  | boolean : Bool → JValue
  | num : String → JValue
  | str : String → JValue
  | arr : List JValue → JValue
  | obj : List (String × JValue) → JValue
deriving Repr

/-- The required system prompt string (claudeCodeSystemPrompt in
impersonation.go). -/
def claudeCodeSystemPrompt : String :=
  "You are Claude Code, Anthropic's official CLI for Claude."

/-- systemPromptElement: the marshalled prompt object.  Go's json.Marshal of a
map orders keys alphabetically, so the member order is text, type. -/
def systemPromptElement : JValue :=
  .obj [("text", .str claudeCodeSystemPrompt), ("type", .str "text")]

/-- systemPromptArray: the marshalled one-element array holding the prompt. -/
def systemPromptArray : JValue :=
  .arr [systemPromptElement]

/-- Decoding one JSON value into a Go string, following encoding/json:
a JSON string decodes to itself, JSON null leaves the zero value "" in
place without error, and every other kind fails. -/
def goStringValue : JValue → Option String
  | .str s => some s
  | .null => some ""
  | _ => none

/-- Decoding a JSON value into a Go map with string values, following
encoding/json (json.Unmarshal into a map of strings): null succeeds and
leaves the map empty, an object succeeds when every member value decodes
as a string, everything else fails.  Duplicate keys are kept in order;
lookups take the last occurrence, matching map overwrite semantics. -/
def goStringMap : JValue → Option (List (String × String))
  | .null => some []
  | .obj pairs => pairs.mapM (fun kv => (goStringValue kv.2).map (fun s => (kv.1, s)))
  | _ => none

/-- Last-occurrence lookup, matching Go map insertion overwrite for
duplicate JSON keys. -/
def lookupLast (k : String) : List (String × String) → Option String
  | [] => none
  | kv :: rest =>
    match lookupLast k rest with
    | some v => some v
    | none => if kv.1 = k then some kv.2 else none

/-- The check performed by ensureSystemPrompt on the first array element: it
unmarshals the element into a Go string map and compares the type and text
members against the required prompt. -/
def firstElemHasPrompt (v : JValue) : Bool :=
  match goStringMap v with
  | some m => lookupLast "type" m == some "text" && lookupLast "text" m == some claudeCodeSystemPrompt
  | none => false

/-- ensureSystemPrompt from impersonation.go: a non-array or empty-array
system value is replaced by the prompt array; an array whose first element
passes the prompt check is written unchanged; otherwise the prompt element
is prepended. -/
def ensureSystemPrompt (v : JValue) : JValue :=
  match v with
  | .arr [] => systemPromptArray
  | .arr (x :: xs) =>
    if firstElemHasPrompt x then .arr (x :: xs)
    else .arr (systemPromptElement :: x :: xs)
  | _ => systemPromptArray

/-- The per-member action of the injector loop: a member keyed system has
its value run through ensureSystemPrompt, any other member streams through
unchanged. -/
def injectMember (kv : String × JValue) : String × JValue :=
  if kv.1 = "system" then (kv.1, ensureSystemPrompt kv.2) else kv

/-- injectSystemPrompt from impersonation.go, at the JSON value level: a
non-object input passes through unchanged; in an object every member whose
key is system has its value run through ensureSystemPrompt while other
members stream through unchanged, and if no system key occurred a
system member holding the prompt array is appended before the closing
brace. -/
def injectSystemPrompt (v : JValue) : JValue :=
  match v with
  | .obj pairs =>
    if pairs.any (fun kv => kv.1 = "system") then .obj (pairs.map injectMember)
    else .obj (pairs.map injectMember ++ [("system", systemPromptArray)])
  | other => other

/-- First-occurrence member lookup on an object value. -/
def objLookupFirst (k : String) : JValue → Option JValue
  | .obj pairs => (pairs.find? (fun kv => kv.1 = k)).map (fun kv => kv.2)
  | _ => none

/-- The first element of the top-level system array of a value, when present. -/
def systemFirstElem (v : JValue) : Option JValue :=
  match objLookupFirst "system" v with
  | some (.arr (x :: _)) => some x
  | _ => none

/-- Top-level members other than system, kept in order. -/
def nonSystemMembers (v : JValue) : List (String × JValue) :=
  match v with
  | .obj pairs => pairs.filter (fun kv => kv.1 ≠ "system")
  | _ => []

/-- Whether one object member may be passed to the injector without change:
either its key is not system, or its value is an array whose first element
passes the prompt check. -/
def systemMemberPromptLike (kv : String × JValue) : Bool :=
  kv.1 ≠ "system" ||
    (match kv.2 with
     | .arr (x :: _) => firstElemHasPrompt x
     | _ => false)

/-- A system element that carries the prompt plus one extra string member:
the Go string-map decode of it succeeds and the type and text members
match, so ensureSystemPrompt passes it through. -/
def promptLikeWithExtraMember : JValue :=
  .obj [("type", .str "text"), ("text", .str claudeCodeSystemPrompt),
        ("extra", .str "kept")]

/-- A system element that carries the prompt plus a nested object member:
the Go string-map decode of it fails, so ensureSystemPrompt prepends a
second prompt element in front of it. -/
def promptLikeWithCacheControl : JValue :=
  .obj [("type", .str "text"), ("text", .str claudeCodeSystemPrompt),
        ("cache_control", .obj [("type", .str "ephemeral")])]

/-- Go unicode.IsSpace restricted to Latin-1 (space, tab, newline, vertical
tab, form feed, carriage return, next line, no-break space).  The claims are
evaluated on ASCII inputs, so the higher Unicode space classes are not
modelled. -/
def goIsSpace (c : Char) : Bool :=
  c = ' ' || c = '\t' || c = '\n' || c = '\r' ||
  c = Char.ofNat 0x0B || c = Char.ofNat 0x0C ||
  c = Char.ofNat 0x85 || c = Char.ofNat 0xA0

/-- Go strings.TrimSpace: drop leading and trailing white space. -/
def goTrimSpace (s : String) : String :=
  String.mk (((s.data.dropWhile goIsSpace).reverse.dropWhile goIsSpace).reverse)

/-! ## FileStore (tokenstore package)

FileStore.Write writes the bytes of strings.TrimSpace(token + "\n") to a
temporary file and renames it over the target, then sets mode 0600.  Only
the pure content computation is embedded; the temp-file lifecycle is OS
interaction. -/

/-- The byte content FileStore.Write stores for a token: the source computes
strings.TrimSpace(token + "\n"), so the appended newline is immediately
trimmed away again. -/
def fileStoreWriteContents (token : String) : String :=
  goTrimSpace (token ++ "\n")

/-- The file mode set on the target after the rename. -/
def fileStoreWriteMode : Nat := 0o600

/-! ## ImpersonationTransport header policy (internal/proxy/impersonation.go) -/

/-- allowedHeaders from impersonation.go: the fixed allow-list of inbound
headers forwarded upstream. -/
def allowedHeaders : List String :=
  ["Content-Type", "Content-Length", "Accept", "Accept-Encoding", "Authorization",
   "Traceparent", "Tracestate"]

/-- The fixed Anthropic-Beta value RoundTrip sets on every outbound request
(impersonation.go line 65). -/
def anthropicBetaValue : String :=
  "oauth-2025-04-20,claude-code-20250219,interleaved-thinking-2025-05-14,fine-grained-tool-streaming-2025-05-14"

/-- Header.Set semantics on the header association list: replace all values
under the key with the single given value. -/
def headerSet (h : List (String × List String)) (k : String) (v : String) :
    List (String × List String) :=
  (k, [v]) :: h.filter (fun kv => kv.1 ≠ k)

/-- First-match header lookup. -/
def headerGet (h : List (String × List String)) (k : String) : Option (List String) :=
  (h.find? (fun kv => kv.1 = k)).map (fun kv => kv.2)

/-- The header transformation performed by ImpersonationTransport.RoundTrip:
keep only the allow-listed inbound headers, then set Anthropic-Beta to the
fixed value and Anthropic-Version to 2023-06-01. -/
def impersonationHeaders (inbound : List (String × List String)) :
    List (String × List String) :=
  let filtered := inbound.filter (fun kv => kv.1 ∈ allowedHeaders)
  headerSet (headerSet filtered "Anthropic-Beta" anthropicBetaValue)
    "Anthropic-Version" "2023-06-01"

/-- The two beta features the spec requires first in the outbound header. -/
def requiredBetaFeatures : List String := ["claude-code-20250219", "oauth-2025-04-20"]

/-- Splitting a character list at commas (strings.Split with a comma
separator; the empty input yields one empty field). -/
def splitCommaAux (cur : List Char) : List Char → List String
  | [] => [String.mk cur.reverse]
  | c :: cs =>
    if c = ',' then String.mk cur.reverse :: splitCommaAux [] cs
    else splitCommaAux (c :: cur) cs

/-- Splitting a string at commas. -/
def splitCommas (s : String) : List String := splitCommaAux [] s.data

/-- Modelled from the spec: buildBetaHeader, referenced by the repository's
tests but absent from the sources.  The spec fixes the outbound value as the
required features followed by the additional inbound features in their
original order, whitespace-trimmed, with entries already present removed by
case-sensitive comparison against the already-present set. -/
def buildBetaHeaderSpec (incoming : String) : String :=
  let features := (splitCommas incoming).map goTrimSpace
  let all := features.foldl
    (fun acc f => if f ≠ "" ∧ f ∉ acc then acc ++ [f] else acc)
    requiredBetaFeatures
  String.intercalate "," all

/-! ## SSE writer and streaming chat-completions handler (internal/proxy/sse.go) -/

/-- dataReplacer from sse.go, over the character list: each newline in a raw
data string is re-prefixed with data:, and each carriage return becomes the
literal two characters backslash r.  Both patterns are single characters, so
the character-wise pass equals the simultaneous replacer. -/
def sseDataEscapeList : List Char → List Char
  | [] => []
  | c :: cs =>
    if c = '\n' then '\n' :: 'd' :: 'a' :: 't' :: 'a' :: ':' :: sseDataEscapeList cs
    else if c = '\r' then '\\' :: 'r' :: sseDataEscapeList cs
    else c :: sseDataEscapeList cs

/-- dataReplacer from sse.go applied to a string. -/
def sseDataEscape (s : String) : String :=
  String.mk (sseDataEscapeList s.data)

/-- WriteRaw: the frame emitted for a raw data string. -/
def writeRawFrame (s : String) : String := "data: " ++ sseDataEscape s ++ "\n\n"

/-- WriteData: the frame emitted for an already JSON-encoded payload. -/
def writeDataFrame (json : String) : String := "data: " ++ json ++ "\n\n"

/-- The stream-termination frame the handler emits after a clean stream. -/
def doneFrame : String := writeRawFrame "[DONE]"

/-- Modelled from the spec: openaiadapter.ChatCompletionErrorResponse is not
under src (only its use in sse.go is); per the spec its JSON encoding is an
object shaped with a single top-level error member. -/
structure ChatCompletionErrorResponse where
  errorBodyJSON : String
deriving Repr, DecidableEq

/-- Modelled from the spec: the JSON encoding of a ChatCompletionErrorResponse. -/
def errorResponseJSON (e : ChatCompletionErrorResponse) : String :=
  "\x7b\"error\":" ++ e.errorBodyJSON ++ "\x7d"

/-- streamResponse from sse.go, over the sequence of items the adapter
iterator yields: each chunk is written as a JSON data frame; on the first
yielded error the handler writes the error response as a single data frame
and returns (nothing after it, no termination marker); when the iterator is
exhausted without error the handler writes the raw DONE frame. -/
def streamResponseFrames {χ : Type} (encode : χ → String) :
    List (Except ChatCompletionErrorResponse χ) → List String
  | [] => [doneFrame]
  | .ok c :: rest => writeDataFrame (encode c) :: streamResponseFrames encode rest
  | .error e :: _ => [writeDataFrame (errorResponseJSON e)]

/-! ## Streaming event translator (anthropicclaude adapter) -/

/-- ToolIndexMapping: the value remembered for an Anthropic tool_use block. -/
structure ToolIndexMapping where
  id : String
  name : String
  openAIToolCallIdx : Nat
deriving Repr, DecidableEq

/-- One entry of a web_search_tool_result block. -/
structure WebSearchResult where
  url : String
  encryptedContent : String
deriving Repr, DecidableEq

/-- The Anthropic stream events distinguished by transformStreamEvent, with
the payload fields the translator reads.  Usage accumulation carries no
information the claims mention and is not modelled. -/
inductive AnthropicStreamEvent where
  | messageStart (id model : String)
  | contentBlockStartText (index : Int)
  | contentBlockStartToolUse (index : Int) (id name : String)
  | contentBlockStartServerToolUse (index : Int)
  | contentBlockStartWebSearchToolResult (index : Int) (results : List WebSearchResult)
  | contentBlockStartOther (index : Int)
  | textDelta (index : Int) (text : String)
  | inputJSONDelta (index : Int) (partialJSON : String)
  | thinkingDelta (index : Int)
  | citationsDeltaWebSearch (index : Int) (url : String)
  | citationsDeltaOther (index : Int)
  | signatureDelta (index : Int)
  | contentBlockStop (index : Int)
  | messageDelta (stopReason : String)
  | messageStop
deriving Repr, DecidableEq

/-- The tool_calls entry of an emitted OpenAI chunk: the initial chunk for a
tool_use block carries id and name with empty arguments; argument delta
chunks carry only the index and the partial JSON. -/
structure ToolCallChunkData where
  openAIIndex : Nat
  id : Option String
  name : Option String
  arguments : String
deriving Repr, DecidableEq

/-- The delta payload of an emitted OpenAI chunk. -/
inductive ChunkDelta where
  | role
  | content (text : String)
  | toolCall (tc : ToolCallChunkData)
  | empty
deriving Repr, DecidableEq

/-- An emitted OpenAI chat-completion chunk (choice 0). -/
structure ChatCompletionChunk where
  delta : ChunkDelta
  finishReason : Option String
  id : String
  model : String
deriving Repr, DecidableEq

/-- Association-map insert with overwrite (Go map assignment). -/
def assocInsert {κ α : Type} [DecidableEq κ] (m : List (κ × α)) (k : κ) (v : α) :
    List (κ × α) :=
  (k, v) :: m.filter (fun kv => kv.1 ≠ k)

/-- Association-map lookup (Go map read). -/
def assocFind {κ α : Type} [DecidableEq κ] (m : List (κ × α)) (k : κ) : Option α :=
  (m.find? (fun kv => kv.1 = k)).map (fun kv => kv.2)

/-- StreamingResponseContext: the per-response mutable state of the
streaming translator. -/
structure StreamingResponseContext where
  nextToolCallIndex : Nat
  anthropicToolIndex : List (Int × ToolIndexMapping)
  webSearchResults : List (String × String)
  citationURLToNumber : List (String × Nat)
  nextCitationNumber : Nat
  justFinishedWebSearch : Bool
  messageID : String
  messageModel : String
  messageStopReason : String
deriving Repr, DecidableEq

/-- The context created at the start of ProcessStreamingRequest. -/
def initialStreamingContext : StreamingResponseContext :=
  { nextToolCallIndex := 0, anthropicToolIndex := [], webSearchResults := [],
    citationURLToNumber := [], nextCitationNumber := 1, justFinishedWebSearch := false,
    messageID := "", messageModel := "", messageStopReason := "" }

/-- Modelled from the spec: newResponseID is not under src; the spec leaves
the synthesis format open (any stable identifier per response), so a fixed
placeholder stands in. -/
def newResponseID : String := "chatcmpl-synthesized"

/-- Modelled from the spec: the fixed stop_reason mapping of section 4.9
(toFinishReasonStreaming is not under src).  The fallback for unmapped
values is unspecified; stop is used. -/
def toFinishReasonStreaming (stopReason : String) : String :=
  if stopReason = "end_turn" then "stop"
  else if stopReason = "max_tokens" then "length"
  else if stopReason = "stop_sequence" then "stop"
  else if stopReason = "tool_use" then "tool_calls"
  else if stopReason = "refusal" then "content_filter"
  else "stop"

/-- The inline citation text emitted for a web-search citation. -/
def citationText (n : Nat) (url : String) : String :=
  "[[" ++ toString n ++ "]](" ++ url ++ ") "

/-- transformStreamEvent from the anthropicclaude adapter: one Anthropic
stream event updates the streaming context and yields at most one OpenAI
chunk. -/
def transformStreamEvent (ctx : StreamingResponseContext)
    (event : AnthropicStreamEvent) :
    StreamingResponseContext × Option ChatCompletionChunk :=
  match event with
  | .messageStart id model =>
    let newID := if id = "" then newResponseID else id
    let ctxNew := { ctx with messageID := newID, messageModel := model }
    (ctxNew, some { delta := .role, finishReason := none,
                    id := ctxNew.messageID, model := ctxNew.messageModel })
  | .contentBlockStartText _ => (ctx, none)
  | .contentBlockStartToolUse index id name =>
    let openaiIdx := ctx.nextToolCallIndex
    let ctxNew := { ctx with
      anthropicToolIndex :=
        assocInsert ctx.anthropicToolIndex index ⟨id, name, openaiIdx⟩,
      nextToolCallIndex := openaiIdx + 1 }
    (ctxNew, some { delta := .toolCall ⟨openaiIdx, some id, some name, ""⟩,
                    finishReason := none, id := ctx.messageID, model := ctx.messageModel })
  | .contentBlockStartServerToolUse _ => (ctx, none)
  | .contentBlockStartWebSearchToolResult _ results =>
    let ctxNew := { ctx with
      webSearchResults := results.foldl
        (fun acc r =>
          if r.url ≠ "" ∧ r.encryptedContent ≠ "" then
            assocInsert acc r.encryptedContent r.url
          else acc)
        ctx.webSearchResults,
      justFinishedWebSearch := true }
    (ctxNew, none)
  | .contentBlockStartOther _ => (ctx, none)
  | .textDelta _ text =>
    if text = "" then (ctx, none)
    else if ctx.justFinishedWebSearch then
      ({ ctx with justFinishedWebSearch := false },
        some { delta := .content ("\n\n" ++ text), finishReason := none,
               id := ctx.messageID, model := ctx.messageModel })
    else
      (ctx, some { delta := .content text, finishReason := none,
                   id := ctx.messageID, model := ctx.messageModel })
  | .inputJSONDelta index partialJSON =>
    match assocFind ctx.anthropicToolIndex index with
    | none => (ctx, none)
    | some m =>
      (ctx, some { delta := .toolCall ⟨m.openAIToolCallIdx, none, none, partialJSON⟩,
                   finishReason := none, id := ctx.messageID, model := ctx.messageModel })
  | .thinkingDelta _ => (ctx, none)
  | .citationsDeltaWebSearch _ url =>
    if url = "" then (ctx, none)
    else
      match assocFind ctx.citationURLToNumber url with
      | some n =>
        (ctx, some { delta := .content (citationText n url), finishReason := none,
                     id := ctx.messageID, model := ctx.messageModel })
      | none =>
        let n := ctx.nextCitationNumber
        ({ ctx with citationURLToNumber := assocInsert ctx.citationURLToNumber url n,
                    nextCitationNumber := n + 1 },
          some { delta := .content (citationText n url), finishReason := none,
                 id := ctx.messageID, model := ctx.messageModel })
  | .citationsDeltaOther _ => (ctx, none)
  | .signatureDelta _ => (ctx, none)
  | .contentBlockStop _ => (ctx, none)
  | .messageDelta stopReason =>
    let ctxNew := { ctx with messageStopReason := stopReason }
    (ctxNew, some { delta := .empty,
                    finishReason := some (toFinishReasonStreaming stopReason),
                    id := ctxNew.messageID, model := ctxNew.messageModel })
  | .messageStop => (ctx, none)

/-- The streaming loop of ProcessStreamingRequest: fold the events through
transformStreamEvent, collecting the emitted chunks in order. -/
def processStreamEvents (ctx : StreamingResponseContext) :
    List AnthropicStreamEvent → StreamingResponseContext × List ChatCompletionChunk
  | [] => (ctx, [])
  | e :: rest =>
    let step := transformStreamEvent ctx e
    let tail := processStreamEvents step.1 rest
    (tail.1, match step.2 with
             | some c => c :: tail.2
             | none => tail.2)

/-- The OpenAI tool-call index of an initial tool-call chunk (the chunk
emitted for a content_block_start of type tool_use, recognizable by its id). -/
def initialToolIndexOf (c : ChatCompletionChunk) : Option Nat :=
  match c.delta with
  | .toolCall tc => if tc.id.isSome then some tc.openAIIndex else none
  | _ => none

/-- The OpenAI tool-call index of an argument delta chunk (emitted for an
InputJSONDelta; carries neither id nor name). -/
def argToolIndexOf (c : ChatCompletionChunk) : Option Nat :=
  match c.delta with
  | .toolCall tc => if tc.id.isSome then none else some tc.openAIIndex
  | _ => none

/-- The OpenAI tool-call indices of the initial tool-call chunks of an
emitted chunk sequence, in emission order. -/
def emittedInitialToolIndices (chunks : List ChatCompletionChunk) : List Nat :=
  chunks.filterMap initialToolIndexOf

/-- The OpenAI tool-call indices of the argument delta chunks of an emitted
chunk sequence, in emission order. -/
def emittedArgToolIndices (chunks : List ChatCompletionChunk) : List Nat :=
  chunks.filterMap argToolIndexOf

/-- The index-translation invariant of a streaming context: every recorded
OpenAI tool-call index lies below the next free one. -/
def toolIndexInvariant (ctx : StreamingResponseContext) : Prop :=
  ∀ kv ∈ ctx.anthropicToolIndex, kv.2.openAIToolCallIdx < ctx.nextToolCallIndex

/-- The upstream event sequence of the spec's tool-use streaming scenario. -/
def exampleStreamEvents : List AnthropicStreamEvent :=
  [.messageStart "msg1" "claude-3",
   .contentBlockStartText 0,
   .textDelta 0 "Let me check",
   .contentBlockStop 0,
   .contentBlockStartToolUse 1 "t1" "get_time",
   .inputJSONDelta 1 "\x7b\"tz\":",
   .inputJSONDelta 1 "\"UTC\"\x7d",
   .contentBlockStop 1,
   .messageDelta "tool_use",
   .messageStop]

/-! ## PersistentTokenSource write-back (app package) -/

/-- The persistence-relevant state of a PersistentTokenSource: the
last-persisted refresh token (nil atomic pointer modelled as none). -/
structure PersistState where
  lastRefreshToken : Option String
deriving Repr, DecidableEq

/-- The write-back step at the end of a successful Token() call: the fresh
refresh token is written through the store exactly when it is non-empty and
differs from the last-persisted value; on write success the cache is
updated, on failure it is left unchanged.  The returned Bool says whether
the store's Write was invoked. -/
def persistRefreshToken (st : PersistState) (freshRefreshToken : String)
    (writeSucceeds : Bool) : Bool × PersistState :=
  let last := st.lastRefreshToken.getD ""
  if freshRefreshToken ≠ "" ∧ freshRefreshToken ≠ last then
    if writeSucceeds then (true, { lastRefreshToken := some freshRefreshToken })
    else (true, st)
  else (false, st)

/-! ## Message transformation: merging consecutive tool messages -/

/-- Anthropic content block parameters, as far as the merge step reads them. -/
inductive ContentBlockParam where
  | text (s : String)
  | toolUse (id : String) (inputJSON : String) (name : String)
  | toolResult (toolUseId : String) (content : String) (isError : Bool)
deriving Repr, DecidableEq

/-- The role of an Anthropic MessageParam. -/
inductive MessageParamRole where
  | user
  | assistant
deriving Repr, DecidableEq

/-- An Anthropic MessageParam. -/
structure MessageParam where
  role : MessageParamRole
  content : List ContentBlockParam
deriving Repr, DecidableEq

/-- The content of a transformedMessage: a MessageParam for
user/assistant/tool, a TextBlockParam for system/developer. -/
inductive TransformedContent where
  | msgParam (m : MessageParam)
  | textBlock (text : String)
deriving Repr, DecidableEq

/-- transformedMessage from messages.go: the original OpenAI role together
with the transformed content. -/
structure TransformedMessage where
  role : String
  content : TransformedContent
deriving Repr, DecidableEq

/-- The blocks a tool message contributes to the accumulator: the
MessageParam content when the type assertion succeeds, nothing otherwise. -/
def toolBlocksOf (m : TransformedMessage) : List ContentBlockParam :=
  match m.content with
  | .msgParam mp => mp.content
  | .textBlock _ => []

/-- The synthetic user message holding accumulated tool_result blocks
(anthropic.NewUserMessage under the tool role tag). -/
def toolUserMessage (blocks : List ContentBlockParam) : TransformedMessage :=
  { role := "tool", content := .msgParam { role := .user, content := blocks } }

/-- flushToolBlocks from mergeConsecutiveToolMessages: a non-empty
accumulator becomes one synthetic user message ahead of the rest. -/
def flushToolBlocks (acc : List ContentBlockParam)
    (rest : List TransformedMessage) : List TransformedMessage :=
  if acc.isEmpty then rest
  else toolUserMessage acc :: rest

/-- The accumulator loop of mergeConsecutiveToolMessages. -/
def mergeToolAux (acc : List ContentBlockParam) :
    List TransformedMessage → List TransformedMessage
  | [] => flushToolBlocks acc []
  | m :: rest =>
    if m.role = "tool" then mergeToolAux (acc ++ toolBlocksOf m) rest
    else flushToolBlocks acc (m :: mergeToolAux [] rest)

/-- mergeConsecutiveToolMessages from messages.go. -/
def mergeConsecutiveToolMessages (messages : List TransformedMessage) :
    List TransformedMessage :=
  mergeToolAux [] messages

/-- Whether a transformed message carries the tool role. -/
def isToolMsg (m : TransformedMessage) : Bool := m.role = "tool"

/-- One user-role message holding all tool_result blocks of a run, in order. -/
def mergedUserMessage (run : List TransformedMessage) : TransformedMessage :=
  toolUserMessage ((run.map toolBlocksOf).flatten)

/-- A message as produced by the upstream transform: tool messages carry a
MessageParam with at least one block (fromChatCompletionRequestToolMessage
always builds exactly one tool_result block). -/
def toolMsgWellFormed (m : TransformedMessage) : Bool :=
  m.role ≠ "tool" ||
    (match m.content with
     | .msgParam mp => !mp.content.isEmpty
     | .textBlock _ => false)

/-- The message list of the spec's merge scenario: user, assistant with two
tool calls, two tool results, assistant. -/
def mergeExampleMessages : List TransformedMessage :=
  [{ role := "user", content := .msgParam { role := .user, content := [.text "Hi"] } },
   { role := "assistant",
     content := .msgParam
       { role := .assistant,
         content := [.toolUse "a" "{}" "get_a", .toolUse "b" "{}" "get_b"] } },
   { role := "tool",
     content := .msgParam { role := .user, content := [.toolResult "a" "R1" false] } },
   { role := "tool",
     content := .msgParam { role := .user, content := [.toolResult "b" "R2" false] } },
   { role := "assistant",
     content := .msgParam { role := .assistant, content := [.text "done"] } }]

/-- The claim's description of the merge: each maximal run of consecutive
tool messages is replaced by exactly one user-role message containing the
run's blocks in order; all other messages stay in place. -/
def mergeSpec : List TransformedMessage → List TransformedMessage
  | [] => []
  | m :: rest =>
    if h : isToolMsg m then
      mergedUserMessage ((m :: rest).takeWhile isToolMsg) ::
        mergeSpec ((m :: rest).dropWhile isToolMsg)
    else m :: mergeSpec rest
termination_by l => l.length
decreasing_by
  · simp only [List.dropWhile_cons, h, if_true, List.length_cons]
    refine Nat.lt_succ_of_le ?_
    induction rest with
    | nil => simp [List.dropWhile]
    | cons a l ih =>
      by_cases ha : isToolMsg a
      · simp only [List.dropWhile_cons, ha, if_true, List.length_cons]
        exact le_trans ih (Nat.le_succ _)
      · simp [List.dropWhile_cons, ha]
  · simp

/-! ## Configuration defaults (app package) -/

/-- One second in Go time.Duration units (nanoseconds). -/
def goSecond : Nat := 1000000000

/-- DefaultConfigShutdownTimeout from the app package: 5 * time.Second. -/
def DefaultConfigShutdownTimeout : Nat := 5 * goSecond

/-- The scalar configuration fields ApplyDefaults fills.  The
storage-specific dynamic defaults (auth file path, keyring user) query the
operating system and are not modelled. -/
structure AppConfig where
  logFormat : String
  serverHost : String
  serverPort : Nat
  shutdownTimeout : Nat
  upstreamBaseURL : String
  authStorage : String
  authMethod : String
deriving Repr, DecidableEq

/-- Config.ApplyDefaults: each unset scalar field receives its default. -/
def applyDefaults (c : AppConfig) : AppConfig :=
  { logFormat := if c.logFormat = "" then "text" else c.logFormat,
    serverHost := if c.serverHost = "" then "127.0.0.1" else c.serverHost,
    serverPort := if c.serverPort = 0 then 4000 else c.serverPort,
    shutdownTimeout :=
      if c.shutdownTimeout = 0 then DefaultConfigShutdownTimeout else c.shutdownTimeout,
    upstreamBaseURL :=
      if c.upstreamBaseURL = "" then "https://api.anthropic.com/v1" else c.upstreamBaseURL,
    authStorage := if c.authStorage = "" then "file" else c.authStorage,
    authMethod := if c.authMethod = "" then "oauth" else c.authMethod }

/-- The zero Config (every field unset). -/
def emptyAppConfig : AppConfig :=
  { logFormat := "", serverHost := "", serverPort := 0, shutdownTimeout := 0,
    upstreamBaseURL := "", authStorage := "", authMethod := "" }

/-! ## Chat-completion request validation (anthropicclaude adapter) -/

/-- The fields of an OpenAI chat-completion request that validateRequest
reads; the message payload type is abstract. -/
structure CreateChatCompletionRequest (μ : Type) where
  model : String
  messages : List μ

/-- validateRequest from the adapter: empty model or empty messages array is
rejected. -/
def validateRequest {μ : Type} (req : CreateChatCompletionRequest μ) : Option String :=
  if req.model = "" then some "model is required"
  else if req.messages.length = 0 then some "messages array cannot be empty"
  else none

/-- The observable outcome of ProcessRequest or ProcessStreamingRequest:
the returned value and whether the upstream provider call was reached. -/
structure ProcessResult (ρ : Type) where
  result : Except String ρ
  upstreamCalled : Bool

/-- ProcessRequest: validation runs first; only when it passes is the
provider called (through the supplied transport) and its response
transformed. -/
def processRequest {μ π ρ : Type} (req : CreateChatCompletionRequest μ)
    (callProviderAPI : Except String π)
    (transformResponse : π → Except String ρ) : ProcessResult ρ :=
  match validateRequest req with
  | some e => { result := .error e, upstreamCalled := false }
  | none =>
    match callProviderAPI with
    | .error e => { result := .error e, upstreamCalled := true }
    | .ok providerResp =>
      { result := transformResponse providerResp, upstreamCalled := true }

/-- ProcessStreamingRequest: validation runs first; only when it passes is
the streaming provider call made. -/
def processStreamingRequest {μ σ : Type} (req : CreateChatCompletionRequest μ)
    (callProviderAPIStreaming : Except String σ) : ProcessResult σ :=
  match validateRequest req with
  | some e => { result := .error e, upstreamCalled := false }
  | none =>
    match callProviderAPIStreaming with
    | .error e => { result := .error e, upstreamCalled := true }
    | .ok s => { result := .ok s, upstreamCalled := true }

/-! ## Theorems -/

/-! ### System-prompt injector -/

theorem ensureSystemPrompt_head (v : JValue) :
    ∃ x xs, ensureSystemPrompt v = .arr (x :: xs) ∧
      (x = systemPromptElement ∨ firstElemHasPrompt x = true) := by
  cases v with
  | arr l =>
    cases l with
    | nil => exact ⟨systemPromptElement, [], rfl, Or.inl rfl⟩
    | cons x xs =>
      by_cases h : firstElemHasPrompt x = true
      · refine ⟨x, xs, ?_, Or.inr h⟩
        simp [ensureSystemPrompt, h]
      · refine ⟨systemPromptElement, x :: xs, ?_, Or.inl rfl⟩
        simp [ensureSystemPrompt, h, systemPromptArray]
  | null => exact ⟨systemPromptElement, [], rfl, Or.inl rfl⟩
  | boolean b => exact ⟨systemPromptElement, [], rfl, Or.inl rfl⟩
  | num s => exact ⟨systemPromptElement, [], rfl, Or.inl rfl⟩
  | str s => exact ⟨systemPromptElement, [], rfl, Or.inl rfl⟩
  | obj ps => exact ⟨systemPromptElement, [], rfl, Or.inl rfl⟩

theorem ensureSystemPrompt_noop (x : JValue) (xs : List JValue)
    (h : firstElemHasPrompt x = true) :
    ensureSystemPrompt (.arr (x :: xs)) = .arr (x :: xs) := by
  simp [ensureSystemPrompt, h]

theorem nonSystemMembers_obj (pairs : List (String × JValue)) :
    nonSystemMembers (.obj pairs) = pairs.filter (fun kv => kv.1 ≠ "system") := rfl

theorem filter_map_injectMember (pairs : List (String × JValue)) :
    (pairs.map injectMember).filter (fun kv => kv.1 ≠ "system") =
      pairs.filter (fun kv => kv.1 ≠ "system") := by
  induction pairs with
  | nil => rfl
  | cons kv rest ih =>
    simp only [ne_eq, decide_not] at ih
    by_cases h : kv.1 = "system"
    · simp [injectMember, h, ih]
    · simp [injectMember, h, ih]

theorem map_injectMember_of_no_system (pairs : List (String × JValue))
    (h : pairs.any (fun kv => kv.1 = "system") = false) :
    pairs.map injectMember = pairs := by
  induction pairs with
  | nil => rfl
  | cons kv rest ih =>
    simp only [List.any_cons, Bool.or_eq_false_iff, decide_eq_false_iff_not] at h
    simp [injectMember, h.1, ih h.2]

theorem find?_system_map_injectMember (pairs : List (String × JValue)) :
    (pairs.map injectMember).find? (fun kv => kv.1 = "system") =
      (pairs.find? (fun kv => kv.1 = "system")).map
        (fun kv => (kv.1, ensureSystemPrompt kv.2)) := by
  induction pairs with
  | nil => rfl
  | cons kv rest ih =>
    by_cases h : kv.1 = "system"
    · simp [injectMember, h]
    · simp [injectMember, h, ih]

theorem find?_append_of_none {α : Type} (p : α → Bool) (l₁ l₂ : List α)
    (h : l₁.find? p = none) : (l₁ ++ l₂).find? p = l₂.find? p := by
  induction l₁ with
  | nil => rfl
  | cons a l ih =>
    by_cases ha : p a = true
    · simp [List.find?_cons_of_pos, ha] at h
    · rw [List.find?_cons_of_neg _ ha] at h
      simpa [List.find?_cons_of_neg _ ha] using ih h

/-- C2: for every JSON object, the injector yields a JSON object whose
top-level system member is an array whose first element is the prompt
element or the already-present prompt-passing first element, and every
member under another key is preserved unchanged.  The claim's stronger
reading, that the first element is always exactly the prompt object, fails
(see the counterexample); this is the amended statement. -/
theorem inject_system_prompt_shape (pairs : List (String × JValue)) :
    (∃ ps, injectSystemPrompt (.obj pairs) = .obj ps) ∧
    (∃ x xs, objLookupFirst "system" (injectSystemPrompt (.obj pairs)) =
        some (.arr (x :: xs)) ∧
      (x = systemPromptElement ∨ firstElemHasPrompt x = true)) ∧
    nonSystemMembers (injectSystemPrompt (.obj pairs)) = nonSystemMembers (.obj pairs) := by
  by_cases hany : pairs.any (fun kv => kv.1 = "system") = true
  · have hinj : injectSystemPrompt (.obj pairs) = .obj (pairs.map injectMember) := by
      simp [injectSystemPrompt, hany]
    refine ⟨⟨_, hinj⟩, ?_, ?_⟩
    · obtain ⟨kv, hmem, hkv⟩ := List.any_eq_true.mp hany
      have hsome : (pairs.find? (fun kv => kv.1 = "system")).isSome := by
        rw [List.find?_isSome]
        exact ⟨kv, hmem, hkv⟩
      obtain ⟨kv₀, hfind⟩ := Option.isSome_iff_exists.mp hsome
      obtain ⟨x, xs, hx, hor⟩ := ensureSystemPrompt_head kv₀.2
      refine ⟨x, xs, ?_, hor⟩
      rw [hinj]
      simp only [objLookupFirst]
      rw [find?_system_map_injectMember, hfind]
      simp [hx]
    · rw [hinj, nonSystemMembers_obj, nonSystemMembers_obj]
      exact filter_map_injectMember pairs
  · have hfalse : pairs.any (fun kv => kv.1 = "system") = false :=
      Bool.eq_false_iff.mpr hany
    have hmap := map_injectMember_of_no_system pairs hfalse
    have hinj : injectSystemPrompt (.obj pairs) =
        .obj (pairs ++ [("system", systemPromptArray)]) := by
      simp [injectSystemPrompt, hfalse, hany, hmap]
    have hnone : pairs.find? (fun kv => kv.1 = "system") = none := by
      rw [List.find?_eq_none]
      intro kv hmem hkv
      have : pairs.any (fun kv => kv.1 = "system") = true :=
        List.any_eq_true.mpr ⟨kv, hmem, hkv⟩
      rw [hfalse] at this
      exact Bool.false_ne_true this
    refine ⟨⟨_, hinj⟩, ?_, ?_⟩
    · refine ⟨systemPromptElement, [], ?_, Or.inl rfl⟩
      rw [hinj]
      simp only [objLookupFirst]
      rw [find?_append_of_none _ _ _ hnone]
      rfl
    · rw [hinj, nonSystemMembers_obj, nonSystemMembers_obj, List.filter_append]
      simp

/-- C2 counterexample: a request whose system array already starts with an
object carrying the prompt text plus one extra string member is passed
through unchanged, so the first element of the output's system array is not
exactly the prompt element (it has an extra member the prompt element
lacks). -/
theorem inject_exact_prompt_counterexample :
    injectSystemPrompt
        (.obj [("system", .arr [promptLikeWithExtraMember]),
               ("model", .str "claude-3-sonnet")]) =
      .obj [("system", .arr [promptLikeWithExtraMember]),
            ("model", .str "claude-3-sonnet")] ∧
    systemFirstElem
        (injectSystemPrompt
          (.obj [("system", .arr [promptLikeWithExtraMember]),
                 ("model", .str "claude-3-sonnet")])) =
      some promptLikeWithExtraMember ∧
    objLookupFirst "extra" promptLikeWithExtraMember = some (.str "kept") ∧
    objLookupFirst "extra" systemPromptElement = none ∧
    promptLikeWithExtraMember ≠ systemPromptElement := by
  refine ⟨rfl, rfl, rfl, rfl, ?_⟩
  intro h
  simp [promptLikeWithExtraMember, systemPromptElement] at h

theorem map_injectMember_of_promptLike (pairs : List (String × JValue))
    (hall : pairs.all systemMemberPromptLike = true) :
    pairs.map injectMember = pairs := by
  induction pairs with
  | nil => rfl
  | cons kv rest ih =>
    simp only [List.all_cons, Bool.and_eq_true] at hall
    have htail := ih hall.2
    obtain ⟨k, v⟩ := kv
    by_cases h : k = "system"
    · have hhead := hall.1
      simp only [systemMemberPromptLike, h] at hhead
      cases v with
      | arr l =>
        cases l with
        | nil => simp at hhead
        | cons x xs =>
          simp at hhead
          simp [injectMember, h, ensureSystemPrompt_noop x xs hhead, htail]
      | null => simp at hhead
      | boolean b => simp at hhead
      | num s => simp at hhead
      | str s => simp at hhead
      | obj ps => simp at hhead
    · simp [injectMember, h, htail]

/-- C7 (amended): the injector is a no-op on a JSON object that has a
top-level system member and whose every system value is an array whose
first element passes the prompt check, i.e. decodes as a Go string map
whose type member is text and whose text member is the prompt.  The
claim's weaker precondition, only requiring type and text to match, fails
when the element carries a non-string member (see the counterexample). -/
theorem inject_noop_on_promptlike_system (pairs : List (String × JValue))
    (hall : pairs.all systemMemberPromptLike = true)
    (hsys : pairs.any (fun kv => kv.1 = "system") = true) :
    injectSystemPrompt (.obj pairs) = .obj pairs := by
  simp [injectSystemPrompt, hsys, map_injectMember_of_promptLike pairs hall]

/-- C7 counterexample: a system array whose first element carries
type text and the prompt text but also a nested-object member fails the Go
string-map decode, so the injector prepends a second prompt element instead
of writing the value through unchanged. -/
theorem inject_noop_counterexample :
    objLookupFirst "type" promptLikeWithCacheControl = some (.str "text") ∧
    objLookupFirst "text" promptLikeWithCacheControl =
      some (.str claudeCodeSystemPrompt) ∧
    injectSystemPrompt (.obj [("system", .arr [promptLikeWithCacheControl])]) =
      .obj [("system", .arr [systemPromptElement, promptLikeWithCacheControl])] ∧
    JValue.arr [systemPromptElement, promptLikeWithCacheControl] ≠
      .arr [promptLikeWithCacheControl] := by
  refine ⟨rfl, rfl, rfl, ?_⟩
  intro h
  simp at h

/-- C7 witness: a request whose system array is exactly the prompt array is
left untouched by the injector. -/
theorem inject_noop_on_promptlike_system_witness :
    injectSystemPrompt
        (.obj [("system", .arr [systemPromptElement]),
               ("model", .str "claude-3-sonnet")]) =
      .obj [("system", .arr [systemPromptElement]),
            ("model", .str "claude-3-sonnet")] :=
  inject_noop_on_promptlike_system
    [("system", .arr [systemPromptElement]), ("model", .str "claude-3-sonnet")]
    rfl rfl

/-! ### ImpersonationTransport header policy -/

/-- C1: the code contradicts the claim (and the repository's own tests,
which fix the merged value and reference a buildBetaHeader function absent
from the sources): RoundTrip drops the inbound Anthropic-Beta header (it is
not allow-listed) and sets one fixed outbound value for every request; at
the tests' inbound value the fixed value differs from the merged value the
claim demands. -/
theorem impersonation_beta_header_fixed :
    (∀ inbound, headerGet (impersonationHeaders inbound) "Anthropic-Beta" =
        some [anthropicBetaValue]) ∧
    buildBetaHeaderSpec " custom-beta , another-beta " =
      "claude-code-20250219,oauth-2025-04-20,custom-beta,another-beta" ∧
    anthropicBetaValue ≠
      "claude-code-20250219,oauth-2025-04-20,custom-beta,another-beta" := by
  refine ⟨?_, by decide, by decide⟩
  intro inbound
  simp [impersonationHeaders, headerGet, headerSet]

/-! ### File token store -/

/-- C3: the code contradicts the claim: Write stores the bytes of
strings.TrimSpace(token + "\n"), so the appended newline is immediately
trimmed away again and the stored content is the bare trimmed token with no
trailing newline. -/
theorem fileStore_write_newline_trimmed :
    fileStoreWriteContents "r1" = "r1" ∧
    fileStoreWriteContents "r1" ≠ "r1" ++ "\n" := by
  refine ⟨by decide, by decide⟩

/-! ### Streaming chat-completions handler -/

/-- C4: when every yielded item is a chunk the handler emits the chunk
frames followed by the literal DONE data frame as the final frame; when an
error is yielded mid-flight it emits the chunk frames followed by a single
error data frame shaped as a top-level error object, and nothing after it
(in particular no DONE frame, whatever the iterator would have yielded
next). -/
theorem stream_done_and_error_frames {χ : Type} (encode : χ → String)
    (chunks : List χ) (e : ChatCompletionErrorResponse)
    (rest : List (Except ChatCompletionErrorResponse χ)) :
    streamResponseFrames encode (chunks.map Except.ok) =
      chunks.map (fun c => writeDataFrame (encode c)) ++ [doneFrame] ∧
    streamResponseFrames encode (chunks.map Except.ok ++ Except.error e :: rest) =
      chunks.map (fun c => writeDataFrame (encode c)) ++
        [writeDataFrame (errorResponseJSON e)] ∧
    doneFrame = "data: [DONE]\n\n" := by
  refine ⟨?_, ?_, by decide⟩
  · induction chunks with
    | nil => rfl
    | cons c cs ih => simp [streamResponseFrames, ih]
  · induction chunks with
    | nil => rfl
    | cons c cs ih => simp [streamResponseFrames, ih]

/-! ### PersistentTokenSource write-back -/

/-- C6: after a successful token fetch the store write is invoked exactly
when the returned refresh token is non-empty and differs from the
last-persisted value; a failed write leaves the last-persisted cache
unchanged, a successful one updates it; when no write is invoked the state
is untouched. -/
theorem persist_write_back_policy (st : PersistState) (fresh : String) (ok : Bool) :
    ((persistRefreshToken st fresh ok).1 = true ↔
      fresh ≠ "" ∧ fresh ≠ st.lastRefreshToken.getD "") ∧
    (ok = false → (persistRefreshToken st fresh ok).2 = st) ∧
    ((persistRefreshToken st fresh ok).1 = true → ok = true →
      (persistRefreshToken st fresh ok).2.lastRefreshToken = some fresh) ∧
    ((persistRefreshToken st fresh ok).1 = false →
      (persistRefreshToken st fresh ok).2 = st) := by
  unfold persistRefreshToken
  by_cases h : fresh ≠ "" ∧ fresh ≠ st.lastRefreshToken.getD ""
  · cases ok <;> simp [h]
  · cases ok <;> simp [h]

/-- C6 witness: starting from a persisted r0 and a rotation to r1, a failing
write leaves the cache at r0 and a succeeding write moves it to r1. -/
theorem persist_write_back_policy_witness :
    (persistRefreshToken ⟨some "r0"⟩ "r1" false).2 = ⟨some "r0"⟩ ∧
    (persistRefreshToken ⟨some "r0"⟩ "r1" true).2.lastRefreshToken = some "r1" := by
  refine ⟨(persist_write_back_policy ⟨some "r0"⟩ "r1" false).2.1 rfl, ?_⟩
  refine (persist_write_back_policy ⟨some "r0"⟩ "r1" true).2.2.1 ?_ rfl
  exact (persist_write_back_policy ⟨some "r0"⟩ "r1" true).1.mpr (by decide)

/-! ### Configuration defaults -/

/-- C9: the code contradicts the claim and the repository's README (which
documents a 10s default): DefaultConfigShutdownTimeout is 5 * time.Second
and ApplyDefaults applies it when the configured timeout is unset. -/
theorem shutdown_timeout_default_five_seconds :
    (applyDefaults emptyAppConfig).shutdownTimeout = 5 * goSecond ∧
    5 * goSecond ≠ 10 * goSecond := by
  exact ⟨rfl, by decide⟩

/-! ### Chat-completion request validation -/

/-- C10: a request with an empty model or an empty messages array is
rejected by validation in both ProcessRequest and ProcessStreamingRequest
before the upstream provider call is reached. -/
theorem process_request_validates_first {μ π ρ : Type}
    (req : CreateChatCompletionRequest μ) (callP : Except String π)
    (tr : π → Except String ρ) (callS : Except String π)
    (h : req.model = "" ∨ req.messages = []) :
    (processRequest req callP tr).upstreamCalled = false ∧
    (∃ e, (processRequest req callP tr).result = .error e) ∧
    (processStreamingRequest req callS).upstreamCalled = false ∧
    (∃ e, (processStreamingRequest req callS).result = .error e) := by
  have hv : ∃ e, validateRequest req = some e := by
    rcases h with h | h
    · exact ⟨"model is required", by simp [validateRequest, h]⟩
    · by_cases hm : req.model = ""
      · exact ⟨"model is required", by simp [validateRequest, hm]⟩
      · exact ⟨"messages array cannot be empty", by simp [validateRequest, hm, h]⟩
  obtain ⟨e, he⟩ := hv
  refine ⟨?_, ⟨e, ?_⟩, ?_, ⟨e, ?_⟩⟩ <;>
    simp [processRequest, processStreamingRequest, he]

/-- C10 witness: an empty model and an empty messages array are each
rejected without the upstream being called. -/
theorem process_request_validates_first_witness :
    (processRequest (⟨"", [()]⟩ : CreateChatCompletionRequest Unit)
        (Except.ok () : Except String Unit)
        (fun _ => Except.ok () : Unit → Except String Unit)).upstreamCalled = false ∧
    (processStreamingRequest (⟨"claude-3", ([] : List Unit)⟩ : CreateChatCompletionRequest Unit)
        (Except.ok () : Except String Unit)).upstreamCalled = false :=
  ⟨(process_request_validates_first ⟨"", [()]⟩ (Except.ok ()) (fun _ => Except.ok ())
      (Except.ok ()) (Or.inl rfl)).1,
   (process_request_validates_first ⟨"claude-3", []⟩ (Except.ok ()) (fun _ => Except.ok ())
      (Except.ok ()) (Or.inr rfl)).2.2.1⟩

/-! ### Merging consecutive tool messages -/

theorem mergeSpec_nil : mergeSpec [] = [] := by simp [mergeSpec]

theorem mergeSpec_cons_tool (m : TransformedMessage) (rest : List TransformedMessage)
    (hm : isToolMsg m = true) :
    mergeSpec (m :: rest) =
      mergedUserMessage ((m :: rest).takeWhile isToolMsg) ::
        mergeSpec ((m :: rest).dropWhile isToolMsg) := by
  simp only [mergeSpec]
  simp [hm]

theorem mergeSpec_cons_nontool (m : TransformedMessage) (rest : List TransformedMessage)
    (hm : isToolMsg m = false) :
    mergeSpec (m :: rest) = m :: mergeSpec rest := by
  simp only [mergeSpec]
  simp [hm]

theorem toolBlocksOf_ne_nil (m : TransformedMessage)
    (hm : isToolMsg m = true) (hwf : toolMsgWellFormed m = true) :
    toolBlocksOf m ≠ [] := by
  have hrole : m.role = "tool" := by simpa [isToolMsg] using hm
  simp only [toolMsgWellFormed, hrole] at hwf
  cases hc : m.content with
  | msgParam mp =>
    rw [hc] at hwf
    simp at hwf
    have hne : mp.content ≠ [] := by
      intro hnil
      rw [hnil] at hwf
      simp at hwf
    simp [toolBlocksOf, hc]
    exact hne
  | textBlock t =>
    rw [hc] at hwf
    simp at hwf

theorem mergeToolAux_spec (l : List TransformedMessage)
    (hwf : l.all toolMsgWellFormed = true) :
    (mergeToolAux [] l = mergeSpec l) ∧
    (∀ acc, acc ≠ [] →
      mergeToolAux acc l =
        toolUserMessage (acc ++ ((l.takeWhile isToolMsg).map toolBlocksOf).flatten) ::
          mergeSpec (l.dropWhile isToolMsg)) := by
  induction l with
  | nil =>
    constructor
    · simp [mergeToolAux, flushToolBlocks, mergeSpec_nil]
    · intro acc hacc
      have haccE : acc.isEmpty = false := by
        cases acc with
        | nil => exact absurd rfl hacc
        | cons a as => rfl
      simp [mergeToolAux, flushToolBlocks, haccE, mergeSpec_nil]
  | cons m rest ih =>
    simp only [List.all_cons, Bool.and_eq_true] at hwf
    obtain ⟨ihB, ihA⟩ := ih hwf.2
    by_cases hm : isToolMsg m = true
    · have hrole : m.role = "tool" := by simpa [isToolMsg] using hm
      have hblocks := toolBlocksOf_ne_nil m hm hwf.1
      constructor
      · have hstep : mergeToolAux [] (m :: rest) =
            mergeToolAux (toolBlocksOf m) rest := by
          simp [mergeToolAux, hrole]
        rw [hstep, ihA (toolBlocksOf m) hblocks, mergeSpec_cons_tool m rest hm]
        simp [hm, mergedUserMessage, List.takeWhile_cons, List.dropWhile_cons]
      · intro acc hacc
        have hacc2 : acc ++ toolBlocksOf m ≠ [] := by simp [hacc]
        have hstep : mergeToolAux acc (m :: rest) =
            mergeToolAux (acc ++ toolBlocksOf m) rest := by
          simp [mergeToolAux, hrole]
        rw [hstep, ihA (acc ++ toolBlocksOf m) hacc2]
        simp [List.takeWhile_cons, List.dropWhile_cons, hm, List.append_assoc]
    · have hrole : ¬ m.role = "tool" := by simpa [isToolMsg] using hm
      have hmf : isToolMsg m = false := Bool.eq_false_iff.mpr hm
      constructor
      · have hstep : mergeToolAux [] (m :: rest) = m :: mergeToolAux [] rest := by
          simp [mergeToolAux, hrole, flushToolBlocks]
        rw [hstep, ihB, mergeSpec_cons_nontool m rest hmf]
      · intro acc hacc
        have haccE : acc.isEmpty = false := by
          cases acc with
          | nil => exact absurd rfl hacc
          | cons a as => rfl
        have hstep : mergeToolAux acc (m :: rest) =
            toolUserMessage acc :: m :: mergeToolAux [] rest := by
          simp [mergeToolAux, hrole, flushToolBlocks, haccE]
        rw [hstep, ihB]
        simp [hmf, mergeSpec_cons_nontool m rest hmf]

/-- C8: mergeConsecutiveToolMessages replaces each maximal run of
consecutive tool messages by exactly one user-role message holding all of
the run's blocks in their original order, and keeps every other message
and its relative position, provided every tool message carries a non-empty
MessageParam (as the upstream transform guarantees: each tool message holds
exactly one tool_result block). -/
theorem merge_consecutive_tool_messages_spec (l : List TransformedMessage)
    (hwf : l.all toolMsgWellFormed = true) :
    mergeConsecutiveToolMessages l = mergeSpec l :=
  (mergeToolAux_spec l hwf).1

/-- C8 witness: the spec's five-message example merges to four messages
with the two tool results combined, in order, into one user-role message. -/
theorem merge_consecutive_tool_messages_witness :
    mergeConsecutiveToolMessages mergeExampleMessages = mergeSpec mergeExampleMessages ∧
    mergeConsecutiveToolMessages mergeExampleMessages =
      [{ role := "user", content := .msgParam { role := .user, content := [.text "Hi"] } },
       { role := "assistant",
         content := .msgParam
           { role := .assistant,
             content := [.toolUse "a" "{}" "get_a", .toolUse "b" "{}" "get_b"] } },
       toolUserMessage [.toolResult "a" "R1" false, .toolResult "b" "R2" false],
       { role := "assistant",
         content := .msgParam { role := .assistant, content := [.text "done"] } }] :=
  ⟨merge_consecutive_tool_messages_spec mergeExampleMessages (by decide), by decide⟩

/-! ### Streaming tool-call index translation -/

theorem processStreamEvents_cons_none (ctx ctx2 : StreamingResponseContext)
    (e : AnthropicStreamEvent) (rest : List AnthropicStreamEvent)
    (hstep : transformStreamEvent ctx e = (ctx2, none)) :
    processStreamEvents ctx (e :: rest) = processStreamEvents ctx2 rest := by
  simp [processStreamEvents, hstep]

theorem processStreamEvents_cons_some (ctx ctx2 : StreamingResponseContext)
    (c : ChatCompletionChunk) (e : AnthropicStreamEvent)
    (rest : List AnthropicStreamEvent)
    (hstep : transformStreamEvent ctx e = (ctx2, some c)) :
    (processStreamEvents ctx (e :: rest)).1 = (processStreamEvents ctx2 rest).1 ∧
    (processStreamEvents ctx (e :: rest)).2 =
      c :: (processStreamEvents ctx2 rest).2 := by
  simp [processStreamEvents, hstep]

theorem emittedInitial_cons_none (c : ChatCompletionChunk)
    (cs : List ChatCompletionChunk) (h : initialToolIndexOf c = none) :
    emittedInitialToolIndices (c :: cs) = emittedInitialToolIndices cs := by
  simp [emittedInitialToolIndices, List.filterMap_cons, h]

theorem emittedInitial_cons_some (c : ChatCompletionChunk)
    (cs : List ChatCompletionChunk) (i : Nat) (h : initialToolIndexOf c = some i) :
    emittedInitialToolIndices (c :: cs) = i :: emittedInitialToolIndices cs := by
  simp [emittedInitialToolIndices, List.filterMap_cons, h]

theorem emittedArg_cons_none (c : ChatCompletionChunk)
    (cs : List ChatCompletionChunk) (h : argToolIndexOf c = none) :
    emittedArgToolIndices (c :: cs) = emittedArgToolIndices cs := by
  simp [emittedArgToolIndices, List.filterMap_cons, h]

theorem emittedArg_cons_some (c : ChatCompletionChunk)
    (cs : List ChatCompletionChunk) (i : Nat) (h : argToolIndexOf c = some i) :
    emittedArgToolIndices (c :: cs) = i :: emittedArgToolIndices cs := by
  simp [emittedArgToolIndices, List.filterMap_cons, h]

theorem assocFind_mem {κ α : Type} [DecidableEq κ] (l : List (κ × α)) (k : κ)
    (v : α) (h : assocFind l k = some v) : ∃ kv, kv ∈ l ∧ kv.2 = v := by
  unfold assocFind at h
  cases hf : l.find? (fun kv => kv.1 = k) with
  | none => rw [hf] at h; simp at h
  | some kv =>
    rw [hf] at h
    simp at h
    exact ⟨kv, List.mem_of_find?_eq_some hf, h⟩

theorem processStreamEvents_tool_indices (events : List AnthropicStreamEvent) :
    ∀ ctx : StreamingResponseContext, toolIndexInvariant ctx →
    (processStreamEvents ctx events).1.nextToolCallIndex =
        ctx.nextToolCallIndex +
          (emittedInitialToolIndices (processStreamEvents ctx events).2).length ∧
    emittedInitialToolIndices (processStreamEvents ctx events).2 =
      List.range' ctx.nextToolCallIndex
        (emittedInitialToolIndices (processStreamEvents ctx events).2).length ∧
    toolIndexInvariant (processStreamEvents ctx events).1 ∧
    (emittedArgToolIndices (processStreamEvents ctx events).2).all
      (fun i => decide
        (i < (processStreamEvents ctx events).1.nextToolCallIndex)) = true := by
  induction events with
  | nil =>
    intro ctx hinv
    exact ⟨rfl, rfl, hinv, rfl⟩
  | cons e rest ih =>
    intro ctx hinv
    cases e with
    | messageStart id model =>
      have hstep : transformStreamEvent ctx (.messageStart id model) =
          ({ ctx with messageID := if id = "" then newResponseID else id,
                      messageModel := model },
            some { delta := .role, finishReason := none,
                   id := if id = "" then newResponseID else id,
                   model := model }) := rfl
      obtain ⟨h1, h2⟩ := processStreamEvents_cons_some _ _ _ _ rest hstep
      rw [h1, h2]
      exact ih _ hinv
    | contentBlockStartText index =>
      rw [processStreamEvents_cons_none ctx ctx (.contentBlockStartText index) rest rfl]
      exact ih ctx hinv
    | contentBlockStartToolUse index id name =>
      set m0 : ToolIndexMapping := ⟨id, name, ctx.nextToolCallIndex⟩ with hm0
      set ctx2 : StreamingResponseContext :=
        { ctx with
          anthropicToolIndex := assocInsert ctx.anthropicToolIndex index m0,
          nextToolCallIndex := ctx.nextToolCallIndex + 1 } with hctx2
      set c0 : ChatCompletionChunk :=
        { delta := .toolCall ⟨ctx.nextToolCallIndex, some id, some name, ""⟩,
          finishReason := none, id := ctx.messageID, model := ctx.messageModel }
        with hc0
      have hstep : transformStreamEvent ctx (.contentBlockStartToolUse index id name) =
          (ctx2, some c0) := rfl
      obtain ⟨h1, h2⟩ := processStreamEvents_cons_some _ _ _ _ rest hstep
      have hnext2 : ctx2.nextToolCallIndex = ctx.nextToolCallIndex + 1 := rfl
      have hinv2 : toolIndexInvariant ctx2 := by
        intro kv hkv
        rw [hnext2]
        have hkv2 : kv ∈ (index, m0) ::
            ctx.anthropicToolIndex.filter (fun p => p.1 ≠ index) := hkv
        rcases List.mem_cons.mp hkv2 with h | h
        · rw [h, hm0]
          exact Nat.lt_succ_self _
        · exact Nat.lt_succ_of_lt (hinv kv (List.mem_of_mem_filter h))
      obtain ⟨ih1, ih2, ih3, ih4⟩ := ih ctx2 hinv2
      have hcinit : initialToolIndexOf c0 = some ctx.nextToolCallIndex := rfl
      have hcarg : argToolIndexOf c0 = none := rfl
      rw [h1, h2, emittedInitial_cons_some _ _ _ hcinit, emittedArg_cons_none _ _ hcarg]
      refine ⟨?_, ?_, ih3, ih4⟩
      · rw [ih1, hnext2, List.length_cons]
        omega
      · rw [List.length_cons, List.range'_succ]
        congr 1
    | contentBlockStartServerToolUse index =>
      rw [processStreamEvents_cons_none ctx ctx (.contentBlockStartServerToolUse index) rest rfl]
      exact ih ctx hinv
    | contentBlockStartWebSearchToolResult index results =>
      have hstep : transformStreamEvent ctx
          (.contentBlockStartWebSearchToolResult index results) =
          ({ ctx with
              webSearchResults := results.foldl
                (fun acc r =>
                  if r.url ≠ "" ∧ r.encryptedContent ≠ "" then
                    assocInsert acc r.encryptedContent r.url
                  else acc)
                ctx.webSearchResults,
              justFinishedWebSearch := true }, none) := rfl
      rw [processStreamEvents_cons_none _ _ _ rest hstep]
      exact ih _ hinv
    | contentBlockStartOther index =>
      rw [processStreamEvents_cons_none ctx ctx (.contentBlockStartOther index) rest rfl]
      exact ih ctx hinv
    | textDelta index text =>
      by_cases ht : text = ""
      · have hstep : transformStreamEvent ctx (.textDelta index text) = (ctx, none) := by
          simp [transformStreamEvent, ht]
        rw [processStreamEvents_cons_none ctx ctx _ rest hstep]
        exact ih ctx hinv
      · by_cases hj : ctx.justFinishedWebSearch = true
        · have hstep : transformStreamEvent ctx (.textDelta index text) =
              ({ ctx with justFinishedWebSearch := false },
                some { delta := .content ("\n\n" ++ text), finishReason := none,
                       id := ctx.messageID, model := ctx.messageModel }) := by
            simp [transformStreamEvent, ht, hj]
          obtain ⟨h1, h2⟩ := processStreamEvents_cons_some _ _ _ _ rest hstep
          rw [h1, h2]
          exact ih _ hinv
        · have hstep : transformStreamEvent ctx (.textDelta index text) =
              (ctx, some { delta := .content text, finishReason := none,
                           id := ctx.messageID, model := ctx.messageModel }) := by
            simp [transformStreamEvent, ht, hj]
          obtain ⟨h1, h2⟩ := processStreamEvents_cons_some _ _ _ _ rest hstep
          rw [h1, h2]
          exact ih ctx hinv
    | inputJSONDelta index partialJSON =>
      cases hfind : assocFind ctx.anthropicToolIndex index with
      | none =>
        have hstep : transformStreamEvent ctx (.inputJSONDelta index partialJSON) =
            (ctx, none) := by
          simp [transformStreamEvent, hfind]
        rw [processStreamEvents_cons_none ctx ctx _ rest hstep]
        exact ih ctx hinv
      | some m0 =>
        set c0 : ChatCompletionChunk :=
          { delta := .toolCall ⟨m0.openAIToolCallIdx, none, none, partialJSON⟩,
            finishReason := none, id := ctx.messageID, model := ctx.messageModel }
          with hc0
        have hstep : transformStreamEvent ctx (.inputJSONDelta index partialJSON) =
            (ctx, some c0) := by
          simp [transformStreamEvent, hfind, hc0]
        obtain ⟨h1, h2⟩ := processStreamEvents_cons_some _ _ _ _ rest hstep
        obtain ⟨ih1, ih2, ih3, ih4⟩ := ih ctx hinv
        have hidx : m0.openAIToolCallIdx < ctx.nextToolCallIndex := by
          obtain ⟨kv, hmem, hkv2⟩ := assocFind_mem ctx.anthropicToolIndex index m0 hfind
          rw [← hkv2]
          exact hinv kv hmem
        have hle : ctx.nextToolCallIndex ≤
            (processStreamEvents ctx rest).1.nextToolCallIndex := by
          rw [ih1]
          exact Nat.le_add_right _ _
        have hcinit : initialToolIndexOf c0 = none := rfl
        have hcarg : argToolIndexOf c0 = some m0.openAIToolCallIdx := rfl
        rw [h1, h2, emittedInitial_cons_none _ _ hcinit, emittedArg_cons_some _ _ _ hcarg]
        refine ⟨ih1, ih2, ih3, ?_⟩
        rw [List.all_cons, ih4, Bool.and_true]
        exact decide_eq_true (lt_of_lt_of_le hidx hle)
    | thinkingDelta index =>
      rw [processStreamEvents_cons_none ctx ctx (.thinkingDelta index) rest rfl]
      exact ih ctx hinv
    | citationsDeltaWebSearch index url =>
      by_cases hu : url = ""
      · have hstep : transformStreamEvent ctx (.citationsDeltaWebSearch index url) =
            (ctx, none) := by
          simp [transformStreamEvent, hu]
        rw [processStreamEvents_cons_none ctx ctx _ rest hstep]
        exact ih ctx hinv
      · cases hfind : assocFind ctx.citationURLToNumber url with
        | some n =>
          have hstep : transformStreamEvent ctx (.citationsDeltaWebSearch index url) =
              (ctx, some { delta := .content (citationText n url), finishReason := none,
                           id := ctx.messageID, model := ctx.messageModel }) := by
            simp [transformStreamEvent, hu, hfind]
          obtain ⟨h1, h2⟩ := processStreamEvents_cons_some _ _ _ _ rest hstep
          rw [h1, h2]
          exact ih ctx hinv
        | none =>
          have hstep : transformStreamEvent ctx (.citationsDeltaWebSearch index url) =
              ({ ctx with
                  citationURLToNumber :=
                    assocInsert ctx.citationURLToNumber url ctx.nextCitationNumber,
                  nextCitationNumber := ctx.nextCitationNumber + 1 },
                some { delta := .content (citationText ctx.nextCitationNumber url),
                       finishReason := none,
                       id := ctx.messageID, model := ctx.messageModel }) := by
            simp [transformStreamEvent, hu, hfind]
          obtain ⟨h1, h2⟩ := processStreamEvents_cons_some _ _ _ _ rest hstep
          rw [h1, h2]
          exact ih _ hinv
    | citationsDeltaOther index =>
      rw [processStreamEvents_cons_none ctx ctx (.citationsDeltaOther index) rest rfl]
      exact ih ctx hinv
    | signatureDelta index =>
      rw [processStreamEvents_cons_none ctx ctx (.signatureDelta index) rest rfl]
      exact ih ctx hinv
    | contentBlockStop index =>
      rw [processStreamEvents_cons_none ctx ctx (.contentBlockStop index) rest rfl]
      exact ih ctx hinv
    | messageDelta stopReason =>
      have hstep : transformStreamEvent ctx (.messageDelta stopReason) =
          ({ ctx with messageStopReason := stopReason },
            some { delta := .empty,
                   finishReason := some (toFinishReasonStreaming stopReason),
                   id := ctx.messageID, model := ctx.messageModel }) := rfl
      obtain ⟨h1, h2⟩ := processStreamEvents_cons_some _ _ _ _ rest hstep
      rw [h1, h2]
      exact ih _ hinv
    | messageStop =>
      rw [processStreamEvents_cons_none ctx ctx .messageStop rest rfl]
      exact ih ctx hinv

/-- C5: within one streaming response the initial tool-call chunks are
assigned the OpenAI indices 0, 1, 2, ... in emission order, recorded with
the block's id and name keyed by its Anthropic index, so they form the
contiguous duplicate-free sequence 0..k; every argument delta chunk refers
back to one of the assigned indices; and an InputJSONDelta whose Anthropic
block index has no recorded mapping yields no chunk. -/
theorem stream_tool_call_indices_contiguous :
    (∀ events : List AnthropicStreamEvent,
      emittedInitialToolIndices
          (processStreamEvents initialStreamingContext events).2 =
        List.range
          (emittedInitialToolIndices
            (processStreamEvents initialStreamingContext events).2).length ∧
      (emittedArgToolIndices
          (processStreamEvents initialStreamingContext events).2).all
        (fun i => decide
          (i < (emittedInitialToolIndices
            (processStreamEvents initialStreamingContext events).2).length)) = true) ∧
    (∀ (ctx : StreamingResponseContext) (index : Int) (partialJSON : String),
      assocFind ctx.anthropicToolIndex index = none →
      (transformStreamEvent ctx (.inputJSONDelta index partialJSON)).2 = none) := by
  constructor
  · intro events
    have hinv0 : toolIndexInvariant initialStreamingContext := by
      intro kv hkv
      simp [initialStreamingContext] at hkv
    obtain ⟨h1, h2, h3, h4⟩ :=
      processStreamEvents_tool_indices events initialStreamingContext hinv0
    constructor
    · rw [List.range_eq_range']
      exact h2
    · have hlen : (processStreamEvents initialStreamingContext events).1.nextToolCallIndex =
          (emittedInitialToolIndices
            (processStreamEvents initialStreamingContext events).2).length := by
        rw [h1]
        simp [initialStreamingContext]
      rw [← hlen]
      exact h4
  · intro ctx index partialJSON hfind
    simp [transformStreamEvent, hfind]

/-- C5 witness: on the spec's tool-use streaming scenario the translator
assigns exactly one tool-call index, 0, both argument chunks reuse it, and
an InputJSONDelta at an unmapped block index yields no chunk. -/
theorem stream_tool_call_indices_contiguous_witness :
    emittedInitialToolIndices
        (processStreamEvents initialStreamingContext exampleStreamEvents).2 =
      List.range 1 ∧
    (emittedArgToolIndices
        (processStreamEvents initialStreamingContext exampleStreamEvents).2).all
      (fun i => decide (i < 1)) = true ∧
    (transformStreamEvent initialStreamingContext (.inputJSONDelta 7 "x")).2 = none := by
  obtain ⟨h1, h2⟩ := (stream_tool_call_indices_contiguous).1 exampleStreamEvents
  have hlen : (emittedInitialToolIndices
      (processStreamEvents initialStreamingContext exampleStreamEvents).2).length = 1 := by
    decide
  rw [hlen] at h1 h2
  exact ⟨h1, h2,
    (stream_tool_call_indices_contiguous).2 initialStreamingContext 7 "x" rfl⟩

end ClaudineProxy
